import Mathlib

/-!
Verification of the Pixel Office core: tile-grid movement / pathfinding and the
room-presence synchronization protocol, embedded shallowly from the repository
sources (webview client hooks, WebSocket client, server room manager).  The
Office State Engine and the tile-map pathfinder are not part of the available
sources (only their callers are), so those operations are modelled from the
specification and marked as such in their doc comments.
-/

set_option maxRecDepth 4000

/-- A tile cell, as a (column, row) pair of grid coordinates. -/
abbrev Cell := Nat × Nat

/-- Association-list lookup by key, mirroring Map.get / Map.has on the
JS side.  Returns the value of the first matching key. -/
def lookupKey {α β : Type} [DecidableEq α] (k : α) : List (α × β) → Option β
  | [] => none
  | (k', v) :: tl => if k' = k then some v else lookupKey k tl

/-- Modelled from the spec: the Tile Map of section 4.1 (officeState.ts and
tileMap.ts are not among the available sources).  A cols x rows grid with a
per-cell walkability classification. -/
structure TileMap where
  cols : Nat
  rows : Nat
  walkable : Nat → Nat → Bool

/-- Whether a cell lies inside the grid. -/
def TileMap.inBounds (m : TileMap) (c : Cell) : Bool :=
  c.1 < m.cols && c.2 < m.rows

/-- Modelled from the spec: isWalkable(col, row) of section 4.1, true for
in-bounds cells whose classification is walkable. -/
def TileMap.isWalkable (m : TileMap) (c : Cell) : Bool :=
  m.inBounds c && m.walkable c.1 c.2

/-- Modelled from the spec: the up-to-4 orthogonal walkable neighbors of a
cell (section 4.1).  Out-of-grid candidates are excluded. -/
def TileMap.neighbors (m : TileMap) (c : Cell) : List Cell :=
  (([(c.1 + 1, c.2), (c.1, c.2 + 1)]
      ++ (if 0 < c.1 then [(c.1 - 1, c.2)] else [])
      ++ (if 0 < c.2 then [(c.1, c.2 - 1)] else [])).filter m.isWalkable)

/-- Modelled from the spec: the breadth-first search loop of section 4.2 —
frontier queue, visited set, predecessor map, terminating on first dequeue of
the goal.  Fuel bounds the number of dequeues (each cell is enqueued at most
once, so cols*rows + 1 dequeues always suffice). -/
def bfsLoop (m : TileMap) (goal : Cell) :
    Nat → List Cell → List Cell → List (Cell × Cell) → Option (List (Cell × Cell))
  | 0, _, _, _ => none
  | _ + 1, [], _, _ => none
  | fuel + 1, c :: queue, visited, pred =>
    if c = goal then some pred
    else
      let ns := (m.neighbors c).filter (fun n => !visited.contains n)
      bfsLoop m goal fuel (queue ++ ns) (visited ++ ns)
        (pred ++ ns.map (fun n => (n, c)))

/-- Modelled from the spec: reconstruction of the path from the predecessor
map recorded by the BFS, walking back from the goal to the start.  The
returned path excludes the start cell and ends at the goal. -/
def pathFromPred (pred : List (Cell × Cell)) (start : Cell) :
    Nat → Cell → List Cell → Option (List Cell)
  | 0, _, _ => none
  | fuel + 1, cur, acc =>
    if cur = start then some acc
    else
      match lookupKey cur pred with
      | some p => pathFromPred pred start fuel p (cur :: acc)
      | none => none

/-- Modelled from the spec: findPath(from, to) of section 4.2 — BFS over
4-connected walkable neighbors; none when the goal is never dequeued
(unreachable), and the empty path when from = to (the start is dequeued
first and immediately matches the goal). -/
def findPath (m : TileMap) (a b : Cell) : Option (List Cell) :=
  match bfsLoop m b (m.cols * m.rows + 1) [a] [a] [] with
  | some pred => pathFromPred pred a (m.cols * m.rows + 1) b []
  | none => none

/-- One step of the walk relation: b is an orthogonal walkable neighbor
of a. -/
def TileMap.Step (m : TileMap) (a b : Cell) : Prop :=
  b ∈ m.neighbors a

/-- Graph-theoretic reachability over walkable neighbor steps. -/
def TileMap.Reach (m : TileMap) (a b : Cell) : Prop :=
  Relation.ReflTransGen m.Step a b

/-- Behavioral status of a participant, from protocol.ts / server types.ts:
type PlayerStatus = coding | reading | idle | afk. -/
inductive PlayerStatus where
  | coding
  | reading
  | idle
  | afk
deriving DecidableEq, Repr

/-- statusToTool from useWebSocket (supabase variant): maps a player status
to the character tool name used for animation. -/
def statusToTool : PlayerStatus → Option String
  | .coding => some "Edit"
  | .reading => some "Read"
  | .idle => none
  | .afk => none

/-- statusToActive from useWebSocket: coding and reading count as active. -/
def statusToActive (status : PlayerStatus) : Bool :=
  status matches .coding || status matches .reading

/-- Modelled from the spec: the per-participant Character Model of section 3
(officeState.ts is not among the available sources).  Only the fields the
synchronization layer reads or writes are carried. -/
structure Character where
  characterIndex : Int
  tile : Cell
  path : List Cell
  seatId : Option String
  isActive : Bool
  tool : Option String
  waitingBubble : Bool
  remoteControlled : Bool
  isLocal : Bool
deriving DecidableEq, Repr

/-- Modelled from the spec: the Office State Engine of section 4.4 — owns the
Tile Map, the seat table (seat id to chair cell), a spawn cell, and the set of
Character Models keyed by participant id. -/
structure OfficeState where
  map : TileMap
  seats : List (String × Cell)
  spawn : Cell
  characters : List (Nat × Character)

/-- Update the character stored under a given id in the character table;
no-op when the id is absent. -/
def updateEntry (id : Nat) (f : Character → Character) :
    List (Nat × Character) → List (Nat × Character)
  | [] => []
  | (k, v) :: tl => (if k = id then (k, f v) else (k, v)) :: updateEntry id f tl

/-- Modelled from the spec: addCharacter of section 4.4 — creates a Character
at the spawn cell (or the seat chair cell when a seat is given); fails
silently (no-op) when the id is already present. -/
def OfficeState.addAgent (os : OfficeState) (id : Nat) (characterIndex : Int)
    (seatId : Option String) (isLocal : Bool) : OfficeState :=
  if (lookupKey id os.characters).isSome then os
  else
    let tile :=
      match seatId.bind fun s => lookupKey s os.seats with
      | some chair => chair
      | none => os.spawn
    { os with
      characters := (id,
        { characterIndex := characterIndex
          tile := tile
          path := []
          seatId := seatId
          isActive := false
          tool := none
          waitingBubble := false
          remoteControlled := false
          isLocal := isLocal }) :: os.characters }

/-- Modelled from the spec: removeCharacter of section 4.4 — destroys the
Character; no-op when absent. -/
def OfficeState.removeAgent (os : OfficeState) (id : Nat) : OfficeState :=
  { os with characters := os.characters.filter fun kc => kc.1 ≠ id }

/-- Modelled from the spec: marks a character as remote-controlled so local
autonomous behavior never drives it (section 3, glossary). -/
def OfficeState.setRemoteControlled (os : OfficeState) (id : Nat) (b : Bool) : OfficeState :=
  { os with characters := updateEntry id (fun ch => { ch with remoteControlled := b }) os.characters }

/-- Modelled from the spec: the active half of setStatus (section 4.4),
as called by the synchronizer handlers. -/
def OfficeState.setAgentActive (os : OfficeState) (id : Nat) (b : Bool) : OfficeState :=
  { os with characters := updateEntry id (fun ch => { ch with isActive := b }) os.characters }

/-- Modelled from the spec: the tool half of setStatus (section 4.4), as
called by the synchronizer handlers. -/
def OfficeState.setAgentTool (os : OfficeState) (id : Nat) (t : Option String) : OfficeState :=
  { os with characters := updateEntry id (fun ch => { ch with tool := t }) os.characters }

/-- Modelled from the spec: shows the waiting bubble over a character (used
by the status handlers for afk). -/
def OfficeState.showWaitingBubble (os : OfficeState) (id : Nat) : OfficeState :=
  { os with characters := updateEntry id (fun ch => { ch with waitingBubble := true }) os.characters }

/-- Modelled from the spec: teleportTo of section 4.4 — bypasses pathing,
sets the tile coordinate and clears any queued path. -/
def OfficeState.teleportToTile (os : OfficeState) (id : Nat) (c r : Nat) : OfficeState :=
  { os with characters := updateEntry id (fun ch => { ch with tile := (c, r), path := [] }) os.characters }

/-- Modelled from the spec: moveTo of section 4.4 — computes a path via the
Pathfinder from the current cell to the target and assigns it; when the
target is unreachable the call is a no-op. -/
def OfficeState.walkToTile (os : OfficeState) (id : Nat) (c r : Nat) : OfficeState :=
  { os with
    characters := updateEntry id (fun ch =>
      match findPath os.map ch.tile (c, r) with
      | some p => { ch with path := p }
      | none => ch) os.characters }

/-- Modelled from the spec: the per-character effect of setSeat (section
4.4) — assign the new seat binding and issue a path to the seat chair cell
(a no-op path assignment when the seat or a path to it cannot be
resolved). -/
def seatUpdate (os : OfficeState) (s : String) (ch : Character) : Character :=
  match lookupKey s os.seats with
  | some chair =>
    match findPath os.map ch.tile chair with
    | some p => { ch with seatId := some s, path := p }
    | none => { ch with seatId := some s }
  | none => { ch with seatId := some s }

/-- Modelled from the spec: setSeat of section 4.4 — clears the old seat
binding, assigns the new one and issues a path to the seat chair cell. -/
def OfficeState.reassignSeat (os : OfficeState) (id : Nat) (s : String) : OfficeState :=
  { os with characters := updateEntry id (seatUpdate os s) os.characters }

/-- Player record of the client protocol (protocol.ts PlayerInfo). -/
structure PlayerInfo where
  id : Nat
  name : String
  characterIndex : Int
  status : PlayerStatus
  seatId : Option String
deriving DecidableEq, Repr

/-- Presence payload tracked per player in useWebSocket (supabase variant);
tile coordinates are optional to mirror the undefined checks the handler
performs on them. -/
structure PresencePayload where
  id : Nat
  name : String
  characterIndex : Int
  status : PlayerStatus
  seatId : Option String
  tileCol : Option Nat
  tileRow : Option Nat
deriving DecidableEq, Repr

/-- The add phase of the presence-sync handler of useWebSocket (supabase
variant) for a single snapshot entry: characters not yet tracked (relative
to the id set captured before the loop) are added; remote ones are marked
remote-controlled and teleported to their last position; active statuses
switch the animation on. -/
def applyPresenceAdd (myId : Nat) (currentIds : List Nat) (os : OfficeState)
    (p : PresencePayload) : OfficeState :=
  if currentIds.contains p.id then os
  else
    let isMe := p.id = myId
    let os1 := os.addAgent p.id p.characterIndex p.seatId isMe
    let os2 :=
      if isMe then os1
      else
        let os1a := os1.setRemoteControlled p.id true
        match p.tileCol, p.tileRow with
        | some c, some r => os1a.teleportToTile p.id c r
        | _, _ => os1a
    if statusToActive p.status then
      (os2.setAgentActive p.id true).setAgentTool p.id (statusToTool p.status)
    else os2

/-- The presence-sync reconciliation of useWebSocket (supabase variant):
characters present in the snapshot but not tracked are added, tracked
characters absent from the snapshot are removed — except the local
participant, which is never removed by this mechanism. -/
def reconcile (os : OfficeState) (myId : Nat) (snapshot : List PresencePayload) : OfficeState :=
  let currentIds := os.characters.map Prod.fst
  let presenceIds := snapshot.map (·.id)
  let os1 := snapshot.foldl (fun acc p => applyPresenceAdd myId currentIds acc p) os
  currentIds.foldl
    (fun acc id => if ¬ presenceIds.contains id ∧ id ≠ myId then acc.removeAgent id else acc)
    os1

/-- The ids of the characters tracked by the engine, as a finite set. -/
def charKeys (os : OfficeState) : Finset Nat :=
  (os.characters.map Prod.fst).toFinset

/-- Client-side view kept by the multiplayer hook: the tracked player list
(React state) together with the engine it mutates. -/
structure ClientView where
  players : List PlayerInfo
  os : OfficeState

/-- The status broadcast handler of useWebSocket (supabase variant): events
about the local participant are ignored; otherwise the animation state is
updated and, for afk, a waiting bubble is shown.  The tracked player list is
not touched by this handler. -/
def handleStatusEvent (v : ClientView) (myId playerId : Nat) (status : PlayerStatus) : ClientView :=
  if playerId = myId then v
  else
    let os1 := v.os.setAgentActive playerId (statusToActive status)
    let os2 := os1.setAgentTool playerId (statusToTool status)
    let os3 := if status = .afk then os2.showWaitingBubble playerId else os2
    { v with os := os3 }

/-- The move broadcast handler of useWebSocket (supabase variant): own
events are ignored, untracked ids are ignored; a target farther than 10
tiles (Manhattan) teleports, a target at distance 1..10 walks. -/
def handleMoveEvent (os : OfficeState) (myId playerId c r : Nat) : OfficeState :=
  if playerId = myId then os
  else
    match lookupKey playerId os.characters with
    | none => os
    | some ch =>
      let dist := Nat.dist ch.tile.1 c + Nat.dist ch.tile.2 r
      if 10 < dist then os.teleportToTile playerId c r
      else if 0 < dist then os.walkToTile playerId c r
      else os

/-- Throttle interval for position broadcasts (ms), from useWebSocket. -/
def POSITION_BROADCAST_INTERVAL_MS : Int := 200

/-- State of the position broadcast loop of useWebSocket: the last broadcast
position (initialized to (-1,-1)) and the last broadcast time. -/
structure BcastState where
  lastCol : Int
  lastRow : Int
  lastTime : Int
deriving DecidableEq, Repr

/-- One frame of the position broadcast loop: when the channel, the local
info and the local character all exist (the frame carries a position), a
move broadcast is emitted only if the tile changed since the last broadcast
and at least the throttle interval elapsed. -/
def bcastStep (s : BcastState) (now : Int) (frame : Option (Nat × Nat)) :
    BcastState × Option (Int × Int × Int) :=
  match frame with
  | none => (s, none)
  | some (c, r) =>
    let posChanged := (c : Int) ≠ s.lastCol ∨ (r : Int) ≠ s.lastRow
    if posChanged ∧ now - s.lastTime ≥ POSITION_BROADCAST_INTERVAL_MS then
      (⟨c, r, now⟩, some (now, c, r))
    else (s, none)

/-- Runs the broadcast loop over a trace of frames (timestamp and, when the
local character is available, its tile), collecting the emitted move
broadcasts as (time, col, row). -/
def bcastRun (s : BcastState) : List (Int × Option (Nat × Nat)) → List (Int × Int × Int)
  | [] => []
  | (t, f) :: rest =>
    match bcastStep s t f with
    | (s', none) => bcastRun s' rest
    | (s', some e) => e :: bcastRun s' rest

/-- Server-to-client protocol messages (protocol.ts ServerMessage). -/
inductive SMsg where
  | roomJoined (roomId : String) (playerId : Nat) (players : List PlayerInfo)
  | playerJoined (player : PlayerInfo)
  | playerLeft (playerId : Nat)
  | playerStatusChanged (playerId : Nat) (status : PlayerStatus)
  | playerSeatChanged (playerId : Nat) (seatId : String)
  | pong
  | error (message : String)
deriving DecidableEq, Repr

/-- Client-to-server protocol messages (protocol.ts ClientMessage). -/
inductive CMsg where
  | createRoom (playerName : String) (characterIndex : Int)
  | joinRoom (roomId : String) (playerName : String) (characterIndex : Int)
  | setStatus (status : PlayerStatus)
  | reassignSeat (seatId : String)
  | ping
deriving DecidableEq, Repr

/-- Client-side view kept by the WebSocket-variant multiplayer hook
(room id, own player id, tracked player list, engine). -/
structure WsView where
  roomId : Option String
  myPlayerId : Option Nat
  players : List PlayerInfo
  os : OfficeState

/-- The server-message dispatcher of the WebSocket-variant useWebSocket
hook: translates each ServerMessage into view and engine mutations; the
error case only logs, and unrecognized messages (pong) fall through. -/
def clientHandleMsg (v : WsView) : SMsg → WsView
  | .roomJoined roomId playerId players =>
    let os' := players.foldl
      (fun os p =>
        if (lookupKey p.id os.characters).isSome then os
        else
          let os1 := os.addAgent p.id p.characterIndex p.seatId true
          if statusToActive p.status then
            (os1.setAgentActive p.id true).setAgentTool p.id (statusToTool p.status)
          else os1)
      v.os
    { v with roomId := some roomId, myPlayerId := some playerId, players := players, os := os' }
  | .playerJoined player =>
    { v with
      players := v.players ++ [player]
      os := v.os.addAgent player.id player.characterIndex player.seatId false }
  | .playerLeft playerId =>
    { v with
      players := v.players.filter fun p => p.id ≠ playerId
      os := v.os.removeAgent playerId }
  | .playerStatusChanged playerId status =>
    let os1 := v.os.setAgentActive playerId (statusToActive status)
    let os2 := os1.setAgentTool playerId (statusToTool status)
    let os3 := if status = .afk then os2.showWaitingBubble playerId else os2
    { v with
      players := v.players.map fun p => if p.id = playerId then { p with status := status } else p
      os := os3 }
  | .playerSeatChanged playerId seatId =>
    { v with
      players := v.players.map fun p => if p.id = playerId then { p with seatId := some seatId } else p
      os := v.os.reassignSeat playerId seatId }
  | .pong => v
  | .error _ => v

/-- The unambiguous room-code alphabet used by both generateRoomId
(server roomManager.ts) and generateRoomCode (useWebSocket): no 0, O, 1
or I. -/
def roomCodeChars : List Char :=
  "ABCDEFGHJKLMNPQRSTUVWXYZ23456789".toList

/-- generateRoomId from server roomManager.ts: a 6-character code whose
characters are drawn from roomCodeChars by the given random draws (each
draw is Math.floor of a uniform number in [0,1) times 32). -/
def generateRoomId (r : Fin 6 → Fin 32) : String :=
  String.mk (((List.finRange 6).map fun i => roomCodeChars.getD (r i).val 'A'))

/-- generateRoomCode from useWebSocket (supabase variant): the client-side
duplicate of generateRoomId, with no uniqueness check against live rooms. -/
def generateRoomCode (r : Fin 6 → Fin 32) : String :=
  String.mk (((List.finRange 6).map fun i => roomCodeChars.getD (r i).val 'A'))

/-- A player record tracked by a server room (roomManager.ts Player, with
the socket modelled as a numeric handle). -/
structure Room where
  id : String
  players : List (Nat × PlayerInfo)
  nextPlayerId : Nat
  cleanupPending : Bool
deriving DecidableEq, Repr

/-- Insert-or-replace by key, mirroring Map.set on the JS side. -/
def setKey {α β : Type} [DecidableEq α] (k : α) (v : β) (l : List (α × β)) : List (α × β) :=
  if (lookupKey k l).isSome then l.map fun kv => if kv.1 = k then (k, v) else kv
  else l ++ [(k, v)]

/-- Room.addPlayer from server roomManager.ts: cancels a pending cleanup,
allocates the next player id, and stores the player; the character index is
reduced with the JS remainder operator (truncated, so it keeps the sign of
the argument). -/
def Room.addPlayer (room : Room) (ws : Nat) (name : String) (characterIndex : Int) :
    PlayerInfo × Room :=
  let info : PlayerInfo :=
    { id := room.nextPlayerId
      name := name
      characterIndex := Int.tmod characterIndex 6
      status := .idle
      seatId := none }
  (info,
    { room with
      cleanupPending := false
      nextPlayerId := room.nextPlayerId + 1
      players := setKey ws info room.players })

/-- RoomManager state: live rooms by id and the socket-to-room index
(roomManager.ts). -/
structure ServerState where
  rooms : List (String × Room)
  wsToRoom : List (Nat × String)
deriving DecidableEq, Repr

/-- RoomManager.sendTo: transmits only when the target socket is open
(readyState 1). -/
def sendTo (ready : Nat → Nat) (ws : Nat) (m : SMsg) : List (Nat × SMsg) :=
  if ready ws = 1 then [(ws, m)] else []

/-- Room.broadcast: sends to every open socket of the room except the
excluded one. -/
def Room.broadcast (room : Room) (ready : Nat → Nat) (m : SMsg) (exclude : Option Nat) :
    List (Nat × SMsg) :=
  room.players.filterMap fun wp =>
    if some wp.1 ≠ exclude ∧ ready wp.1 = 1 then some (wp.1, m) else none

/-- RoomManager.handleJoinRoom: an unknown room id is answered with a
single error message to the requester; otherwise the player is added, the
joiner receives the room snapshot and the other members a playerJoined
broadcast. -/
def handleJoinRoom (ready : Nat → Nat) (st : ServerState) (ws : Nat)
    (roomId playerName : String) (characterIndex : Int) :
    ServerState × List (Nat × SMsg) :=
  match lookupKey roomId st.rooms with
  | none => (st, sendTo ready ws (.error ("Room " ++ roomId ++ " not found")))
  | some room =>
    let existing := room.players.map (·.2)
    let (info, room') := room.addPlayer ws playerName characterIndex
    let st' : ServerState :=
      { rooms := setKey roomId room' st.rooms
        wsToRoom := setKey ws roomId st.wsToRoom }
    (st',
      sendTo ready ws (.roomJoined roomId info.id (existing ++ [info]))
        ++ room'.broadcast ready (.playerJoined info) (some ws))

/-- The room-id generation loop of RoomManager.handleCreateRoom: draw ids
until one is not a currently-live room (fuel bounds the retries; the k-th
attempt uses the k-th block of random draws). -/
def pickRoomId (rooms : List (String × Room)) (rs : Nat → Fin 6 → Fin 32) :
    Nat → Nat → Option String
  | 0, _ => none
  | fuel + 1, k =>
    let cand := generateRoomId (rs k)
    if (lookupKey cand rooms).isSome then pickRoomId rooms rs fuel (k + 1)
    else some cand

/-- RoomManager.handleCreateRoom: picks a fresh room id, creates the room
with its creator as first player, and answers with roomJoined. -/
def handleCreateRoom (ready : Nat → Nat) (st : ServerState) (ws : Nat)
    (playerName : String) (characterIndex : Int)
    (rs : Nat → Fin 6 → Fin 32) (fuel : Nat) :
    Option (ServerState × List (Nat × SMsg)) :=
  match pickRoomId st.rooms rs fuel 0 with
  | none => none
  | some roomId =>
    let room : Room := { id := roomId, players := [], nextPlayerId := 1, cleanupPending := false }
    let (info, room') := room.addPlayer ws playerName characterIndex
    let st' : ServerState :=
      { rooms := setKey roomId room' st.rooms
        wsToRoom := setKey ws roomId st.wsToRoom }
    some (st', sendTo ready ws (.roomJoined roomId info.id [info]))

/-- The underlying browser socket, reduced to its ready state
(WebSocket.OPEN is 1). -/
structure WSocket where
  readyState : Nat
deriving DecidableEq, Repr

/-- WsClient state (wsClient.ts): the optional underlying socket, the
pending-message buffer, and the reconnect/ping bookkeeping flags. -/
structure WsClientState where
  ws : Option WSocket
  pendingMessages : List CMsg
  shouldReconnect : Bool
  pingTimer : Bool
deriving DecidableEq, Repr

/-- WsClient.send: transmits only when a socket exists and is OPEN;
otherwise nothing happens — the message is neither sent nor buffered. -/
def WsClientState.send (st : WsClientState) (m : CMsg) : WsClientState × List CMsg :=
  match st.ws with
  | some s => if s.readyState = 1 then (st, [m]) else (st, [])
  | none => (st, [])

/-- The onopen handler of WsClient.doConnect: re-sends every buffered
message through send, clears the buffer, and starts the ping timer. -/
def WsClientState.onOpen (st : WsClientState) : WsClientState × List CMsg :=
  let flushed := st.pendingMessages.foldl
    (fun (acc : WsClientState × List CMsg) m =>
      let (st', out) := acc.1.send m
      (st', acc.2 ++ out))
    (st, [])
  ({ flushed.1 with pendingMessages := [], pingTimer := true }, flushed.2)

/-- C3: a status-changed event whose id equals the local participant's id
performs no mutation at all — the engine's characters and the tracked
player list are exactly the same after the event as before it. -/
theorem C3_self_status_no_mutation (v : ClientView) (myId : Nat) (status : PlayerStatus) :
    handleStatusEvent v myId myId status = v := by
  simp [handleStatusEvent]

/-- C9: Room.addPlayer called with characterIndex = -1 stores -1 as the
player record's characterIndex — the JS remainder keeps the sign of its
argument, so the stored value lies outside the 0..5 range the code's own
clamp comment promises. -/
theorem C9_addPlayer_negative_index :
    ((Room.addPlayer ⟨"ABCDEF", [], 1, false⟩ 7 "bob" (-1)).1).characterIndex = -1 ∧
      ¬ (0 ≤ ((Room.addPlayer ⟨"ABCDEF", [], 1, false⟩ 7 "bob" (-1)).1).characterIndex ∧
          ((Room.addPlayer ⟨"ABCDEF", [], 1, false⟩ 7 "bob" (-1)).1).characterIndex ≤ 5) := by
  decide

/-- The onopen flush loop re-sends the buffered messages in order without
touching the rest of the client state, as long as the socket is open. -/
theorem sendFold_open (s : WSocket) (hready : s.readyState = 1) :
    ∀ (l : List CMsg) (st : WsClientState) (acc : List CMsg), st.ws = some s →
      l.foldl
        (fun (acc : WsClientState × List CMsg) m =>
          let (st', out) := acc.1.send m
          (st', acc.2 ++ out))
        (st, acc) = (st, acc ++ l) := by
  intro l
  induction l with
  | nil => intro st acc _; simp
  | cons m tl ih =>
    intro st acc hws
    have hsend : st.send m = (st, [m]) := by
      simp [WsClientState.send, hws, hready]
    simp only [List.foldl_cons, hsend]
    rw [ih st (acc ++ [m]) hws]
    simp

/-- C10: WsClient.send while the socket is absent or not OPEN is a silent
no-op — the message is neither transmitted nor added to the pending buffer
and the client state is untouched; the pending buffer is only drained by
the onopen handler, which re-sends it in order and clears it. -/
theorem C10_send_while_disconnected_dropped
    (st stO : WsClientState) (sO : WSocket) (m : CMsg)
    (hclosed : ∀ s, st.ws = some s → s.readyState ≠ 1)
    (hopen : stO.ws = some sO) (hready : sO.readyState = 1) :
    st.send m = (st, []) ∧
      stO.onOpen = ({ stO with pendingMessages := [], pingTimer := true }, stO.pendingMessages) := by
  constructor
  · cases hws : st.ws with
    | none => simp [WsClientState.send, hws]
    | some s =>
      have := hclosed s hws
      simp [WsClientState.send, hws, this]
  · unfold WsClientState.onOpen
    rw [sendFold_open sO hready stO.pendingMessages stO [] hopen]
    simp

/-- Witness for C10 at a concrete disconnected sender and a concrete open
socket carrying one pending message. -/
theorem C10_witness :
    WsClientState.send ⟨none, [CMsg.ping], false, false⟩ CMsg.ping
        = (⟨none, [CMsg.ping], false, false⟩, []) ∧
      WsClientState.onOpen ⟨some ⟨1⟩, [CMsg.ping], true, false⟩
        = (⟨some ⟨1⟩, [], true, true⟩, [CMsg.ping]) :=
  C10_send_while_disconnected_dropped ⟨none, [CMsg.ping], false, false⟩
    ⟨some ⟨1⟩, [CMsg.ping], true, false⟩ ⟨1⟩ CMsg.ping
    (fun s h => by cases h) rfl rfl

/-- Every prefix step of the broadcast loop keeps the chain property: from a
state whose last-broadcast record heads the emission list, consecutive
emissions are at least the throttle interval apart and at distinct tiles. -/
theorem bcastRun_chain (tr : List (Int × Option (Nat × Nat))) :
    ∀ s : BcastState,
      List.Chain'
        (fun a b : Int × Int × Int =>
          POSITION_BROADCAST_INTERVAL_MS ≤ b.1 - a.1 ∧ b.2 ≠ a.2)
        ((s.lastTime, s.lastCol, s.lastRow) :: bcastRun s tr) := by
  induction tr with
  | nil => intro s; simp [bcastRun]
  | cons tf rest ih =>
    intro s
    obtain ⟨t, f⟩ := tf
    cases f with
    | none =>
      simpa [bcastRun, bcastStep] using ih s
    | some cr =>
      obtain ⟨c, r⟩ := cr
      by_cases hg : ((c : Int) ≠ s.lastCol ∨ (r : Int) ≠ s.lastRow) ∧
          t - s.lastTime ≥ POSITION_BROADCAST_INTERVAL_MS
      · have hrun : bcastRun s ((t, some (c, r)) :: rest)
            = ((t : Int), (c : Int), (r : Int)) :: bcastRun ⟨c, r, t⟩ rest := by
          simp [bcastRun, bcastStep, hg]
        rw [hrun, List.chain'_cons]
        refine ⟨⟨hg.2, ?_⟩, ?_⟩
        · intro hpair
          rcases hg.1 with h1 | h1
          · exact h1 (congrArg Prod.fst hpair)
          · exact h1 (congrArg Prod.snd hpair)
        · simpa using ih (⟨c, r, t⟩ : BcastState)
      · simpa [bcastRun, bcastStep, hg] using ih s

/-- C6: over any trace of animation frames, the position broadcast loop
(started from its initial last-broadcast record (-1,-1) at time 0) never
emits two broadcasts less than the 200 ms throttle interval apart, and each
emission's tile differs from the previously broadcast tile. -/
theorem C6_broadcast_throttled (tr : List (Int × Option (Nat × Nat))) :
    List.Chain'
      (fun a b : Int × Int × Int =>
        POSITION_BROADCAST_INTERVAL_MS ≤ b.1 - a.1 ∧ b.2 ≠ a.2)
      (((0 : Int), (-1 : Int), (-1 : Int)) :: bcastRun ⟨-1, -1, 0⟩ tr) :=
  bcastRun_chain tr ⟨-1, -1, 0⟩

/-- C8: a joinRoom request naming a room id that is not currently live is
answered with a single error message addressed to the requester, the server
state is completely unchanged (no room created, no player added, no index
touched), nothing is sent to any other client, and the client's error
handler performs no mutation and no retry. -/
theorem C8_join_unknown_room (ready : Nat → Nat) (st : ServerState) (ws : Nat)
    (roomId playerName : String) (characterIndex : Int) (v : WsView) (emsg : String)
    (h : lookupKey roomId st.rooms = none) :
    (handleJoinRoom ready st ws roomId playerName characterIndex).1 = st ∧
      (∀ w m, (w, m) ∈ (handleJoinRoom ready st ws roomId playerName characterIndex).2 →
        w = ws ∧ m = SMsg.error ("Room " ++ roomId ++ " not found")) ∧
      (ready ws = 1 →
        (handleJoinRoom ready st ws roomId playerName characterIndex).2
          = [(ws, SMsg.error ("Room " ++ roomId ++ " not found"))]) ∧
      clientHandleMsg v (.error emsg) = v := by
  refine ⟨?_, ?_, ?_, ?_⟩
  · simp [handleJoinRoom, h]
  · intro w m hm
    simp only [handleJoinRoom, h, sendTo] at hm
    by_cases hr : ready ws = 1
    · simp [hr] at hm
      exact ⟨hm.1, hm.2⟩
    · simp [hr] at hm
  · intro hr
    simp [handleJoinRoom, h, sendTo, hr]
  · simp [clientHandleMsg]

/-- Witness for C8: joining any room on an empty server yields only the
error reply to the requester and leaves the state untouched. -/
theorem C8_witness :
    (handleJoinRoom (fun _ => 1) ⟨[], []⟩ 7 "ZZZZZZ" "bob" 0).1 = (⟨[], []⟩ : ServerState) ∧
      (handleJoinRoom (fun _ => 1) ⟨[], []⟩ 7 "ZZZZZZ" "bob" 0).2
        = [(7, SMsg.error ("Room " ++ "ZZZZZZ" ++ " not found"))] ∧
      clientHandleMsg ⟨none, none, [], ⟨⟨1, 1, fun _ _ => true⟩, [], (0, 0), []⟩⟩ (.error "x")
        = ⟨none, none, [], ⟨⟨1, 1, fun _ _ => true⟩, [], (0, 0), []⟩⟩ := by
  have h := C8_join_unknown_room (fun _ => 1) ⟨[], []⟩ 7 "ZZZZZZ" "bob" 0
    ⟨none, none, [], ⟨⟨1, 1, fun _ _ => true⟩, [], (0, 0), []⟩⟩ "x" rfl
  exact ⟨h.1, h.2.2.1 rfl, h.2.2.2⟩

/-- Both room-code generators only emit 6-character strings over the
unambiguous alphabet. -/
theorem generateRoomId_shape (r : Fin 6 → Fin 32) :
    (generateRoomId r).length = 6 ∧ ∀ ch ∈ (generateRoomId r).toList, ch ∈ roomCodeChars := by
  constructor
  · simp [generateRoomId, String.length]
  · intro ch hch
    simp only [generateRoomId, String.toList, List.mem_map] at hch
    obtain ⟨i, _, hi⟩ := hch
    have hlt : ((r i).val : Nat) < roomCodeChars.length := by
      have : roomCodeChars.length = 32 := by decide
      rw [this]; exact (r i).isLt
    rw [← hi, List.getD_eq_getElem roomCodeChars 'A' hlt]
    exact List.getElem_mem hlt

/-- The create-room retry loop only ever returns an id that is not a
currently-live room, and every id it returns came from generateRoomId. -/
theorem pickRoomId_fresh (rooms : List (String × Room)) (rs : Nat → Fin 6 → Fin 32) :
    ∀ (fuel k : Nat) (id : String), pickRoomId rooms rs fuel k = some id →
      lookupKey id rooms = none ∧ ∃ r, id = generateRoomId r := by
  intro fuel
  induction fuel with
  | zero => intro k id h; simp [pickRoomId] at h
  | succ n ih =>
    intro k id h
    simp only [pickRoomId] at h
    by_cases hc : (lookupKey (generateRoomId (rs k)) rooms).isSome
    · rw [if_pos hc] at h
      exact ih (k + 1) id h
    · rw [if_neg hc] at h
      cases h
      refine ⟨?_, rs k, rfl⟩
      cases hl : lookupKey (generateRoomId (rs k)) rooms with
      | none => rfl
      | some room => rw [hl] at hc; simp at hc

/-- C7 (amended): every id produced by generateRoomId or generateRoomCode
is exactly 6 characters from the unambiguous 32-character alphabet; the
server-side creation loop additionally retries until the id is not a
currently-live room, so server-created ids are fresh at creation time. -/
theorem C7_room_codes (r r' : Fin 6 → Fin 32) (rooms : List (String × Room))
    (rs : Nat → Fin 6 → Fin 32) (fuel k : Nat) (id : String) :
    ((generateRoomId r).length = 6 ∧ ∀ ch ∈ (generateRoomId r).toList, ch ∈ roomCodeChars) ∧
      ((generateRoomCode r').length = 6 ∧
        ∀ ch ∈ (generateRoomCode r').toList, ch ∈ roomCodeChars) ∧
      (pickRoomId rooms rs fuel k = some id → lookupKey id rooms = none) := by
  refine ⟨generateRoomId_shape r, ?_, fun h => (pickRoomId_fresh rooms rs fuel k id h).1⟩
  have heq : generateRoomCode r' = generateRoomId r' := rfl
  rw [heq]
  exact generateRoomId_shape r'

/-- Witness for C7 at a server with one live room AAAAAA and a random
stream whose first draw collides: the loop retries and returns the fresh
code BBBBBB. -/
theorem C7_witness :
    (generateRoomId (fun _ => 1)).length = 6 ∧
      lookupKey "BBBBBB"
        [("AAAAAA", (⟨"AAAAAA", [], 1, false⟩ : Room))] = none := by
  have h := C7_room_codes (fun _ => 1) (fun _ => 1)
    [("AAAAAA", (⟨"AAAAAA", [], 1, false⟩ : Room))]
    (fun k _ => if k = 0 then 0 else 1) 3 0 "BBBBBB"
  exact ⟨h.1.1, h.2.2 (by decide)⟩

/-- C7 counterexample: the client-side generator performs no uniqueness
check — with these random draws it returns AAAAAA even though AAAAAA is a
currently-live room. -/
theorem C7_counterexample :
    generateRoomCode (fun _ => 0) = "AAAAAA" ∧
      (lookupKey (generateRoomCode (fun _ => 0))
        [("AAAAAA", (⟨"AAAAAA", [], 1, false⟩ : Room))]).isSome = true := by
  decide

/-- Every cell the BFS loop ever holds in its frontier queue is reachable
from the start, so a successful termination (first dequeue of the goal)
certifies reachability of the goal. -/
theorem bfsLoop_sound (m : TileMap) (a goal : Cell) :
    ∀ (fuel : Nat) (queue visited : List Cell) (pr res : List (Cell × Cell)),
      (∀ c ∈ queue, m.Reach a c) →
      bfsLoop m goal fuel queue visited pr = some res → m.Reach a goal := by
  intro fuel
  induction fuel with
  | zero => intro queue visited pr res _ h; simp [bfsLoop] at h
  | succ n ih =>
    intro queue visited pr res hq h
    cases queue with
    | nil => simp [bfsLoop] at h
    | cons c qs =>
      by_cases hc : c = goal
      · exact hc ▸ hq c (List.mem_cons_self c qs)
      · simp only [bfsLoop] at h
        rw [if_neg hc] at h
        refine ih _ _ _ res ?_ h
        intro x hx
        rcases List.mem_append.mp hx with hx | hx
        · exact hq x (List.mem_cons_of_mem c hx)
        · have hxn : x ∈ m.neighbors c := List.mem_of_mem_filter hx
          exact Relation.ReflTransGen.tail (hq c (List.mem_cons_self c qs)) hxn

/-- A successful findPath certifies that the target is reachable from the
start by walkable neighbor steps. -/
theorem findPath_reach (m : TileMap) (a b : Cell) (p : List Cell)
    (h : findPath m a b = some p) : m.Reach a b := by
  unfold findPath at h
  cases hb : bfsLoop m b (m.cols * m.rows + 1) [a] [a] [] with
  | none => rw [hb] at h; simp at h
  | some pr =>
    refine bfsLoop_sound m a b _ [a] [a] [] pr ?_ hb
    intro c hc
    simp at hc
    subst hc
    exact Relation.ReflTransGen.refl

/-- The path reconstruction only ever extends its accumulator on the left,
so the accumulator is a suffix of any returned path. -/
theorem pathFromPred_append (pr : List (Cell × Cell)) (start : Cell) :
    ∀ (fuel : Nat) (cur : Cell) (acc p : List Cell),
      pathFromPred pr start fuel cur acc = some p → ∃ t, p = t ++ acc := by
  intro fuel
  induction fuel with
  | zero => intro cur acc p h; simp [pathFromPred] at h
  | succ n ih =>
    intro cur acc p h
    simp only [pathFromPred] at h
    by_cases hc : cur = start
    · rw [if_pos hc] at h
      injection h with h
      exact ⟨[], h.symm⟩
    · rw [if_neg hc] at h
      cases hl : lookupKey cur pr with
      | none => rw [hl] at h; simp at h
      | some q =>
        rw [hl] at h
        obtain ⟨t, ht⟩ := ih q (cur :: acc) p h
        exact ⟨t ++ [cur], by simp [ht]⟩

/-- When start and goal differ, a successful findPath returns a non-empty
path whose last cell is the goal. -/
theorem findPath_end (m : TileMap) (a b : Cell) (p : List Cell) (hne : a ≠ b)
    (h : findPath m a b = some p) : p ≠ [] ∧ p.getLast? = some b := by
  unfold findPath at h
  cases hb : bfsLoop m b (m.cols * m.rows + 1) [a] [a] [] with
  | none => rw [hb] at h; simp at h
  | some pr =>
    rw [hb] at h
    simp only [pathFromPred] at h
    rw [if_neg (fun hh => hne hh.symm)] at h
    cases hl : lookupKey b pr with
    | none => rw [hl] at h; simp at h
    | some q =>
      rw [hl] at h
      obtain ⟨t, ht⟩ := pathFromPred_append pr a (m.cols * m.rows) q [b] p h
      subst ht
      exact ⟨by simp, by simp⟩

/-- A positive Manhattan distance means the two cells differ. -/
theorem dist_pos_ne {x y c r : Nat} (h : 0 < Nat.dist x c + Nat.dist y r) :
    (x, y) ≠ (c, r) := by
  intro he
  rw [Prod.mk.injEq] at he
  obtain ⟨rfl, rfl⟩ := he
  simp [Nat.dist_self] at h

/-- Looking up the updated id after updateEntry sees the updated value. -/
theorem lookupKey_updateEntry (id : Nat) (f : Character → Character) :
    ∀ l : List (Nat × Character),
      lookupKey id (updateEntry id f l) = (lookupKey id l).map f := by
  intro l
  induction l with
  | nil => rfl
  | cons kv tl ih =>
    obtain ⟨k, v⟩ := kv
    simp only [updateEntry]
    by_cases hk : k = id
    · subst hk
      rw [if_pos rfl]
      simp [lookupKey]
    · rw [if_neg hk]
      simp [lookupKey, hk, ih]

/-- C2 (amended): a position event about a tracked remote character
teleports it (target coordinate, empty path) when the Manhattan distance
exceeds 10; when the distance is in 1..10 and the pathfinder finds a path
to the target, that non-empty path ending at the target becomes the queued
path. -/
theorem C2_position_event (os : OfficeState) (myId playerId c r : Nat) (ch : Character)
    (hne : playerId ≠ myId)
    (hch : lookupKey playerId os.characters = some ch) :
    (10 < Nat.dist ch.tile.1 c + Nat.dist ch.tile.2 r →
      lookupKey playerId (handleMoveEvent os myId playerId c r).characters
        = some { ch with tile := (c, r), path := [] }) ∧
    (∀ p, Nat.dist ch.tile.1 c + Nat.dist ch.tile.2 r ≤ 10 →
      0 < Nat.dist ch.tile.1 c + Nat.dist ch.tile.2 r →
      findPath os.map ch.tile (c, r) = some p →
      lookupKey playerId (handleMoveEvent os myId playerId c r).characters
          = some { ch with path := p }
        ∧ p ≠ [] ∧ p.getLast? = some (c, r)) := by
  constructor
  · intro hfar
    simp only [handleMoveEvent, if_neg hne, hch, if_pos hfar]
    simp [OfficeState.teleportToTile, lookupKey_updateEntry, hch]
  · intro p hle hpos hfp
    have hnotfar : ¬ 10 < Nat.dist ch.tile.1 c + Nat.dist ch.tile.2 r := by omega
    simp only [handleMoveEvent, if_neg hne, hch, if_neg hnotfar, if_pos hpos]
    have hends := findPath_end os.map ch.tile (c, r) p
      (by have := dist_pos_ne hpos; simpa using this) hfp
    refine ⟨?_, hends.1, hends.2⟩
    simp [OfficeState.walkToTile, lookupKey_updateEntry, hch, hfp]

/-- C4: findPath of a cell to itself is the empty path (the start is
dequeued first and immediately matches the goal), and findPath to a target
unreachable from the start is none. -/
theorem C4_findPath (m : TileMap) (a b : Cell) (h : ¬ m.Reach a b) :
    findPath m a a = some [] ∧ findPath m a b = none := by
  constructor
  · simp [findPath, bfsLoop, pathFromPred]
  · cases hfp : findPath m a b with
    | none => rfl
    | some p => exact absurd (findPath_reach m a b p hfp) h

/-- Witness for C4 on a concrete 3x1 corridor whose middle cell is blocked:
the two ends are disconnected. -/
theorem C4_witness :
    findPath (⟨3, 1, fun c _ => c ≠ 1⟩ : TileMap) (0, 0) (0, 0) = some [] ∧
      findPath (⟨3, 1, fun c _ => c ≠ 1⟩ : TileMap) (0, 0) (2, 0) = none := by
  refine C4_findPath _ (0, 0) (2, 0) ?_
  intro h
  rcases Relation.ReflTransGen.cases_head h with heq | ⟨c, hstep, _⟩
  · exact absurd heq (by decide)
  · have hmem : c ∈ TileMap.neighbors ⟨3, 1, fun c _ => c ≠ 1⟩ (0, 0) := hstep
    have hn : TileMap.neighbors (⟨3, 1, fun c _ => c ≠ 1⟩ : TileMap) (0, 0) = [] := by decide
    rw [hn] at hmem
    exact absurd hmem (List.not_mem_nil c)

/-- C2 counterexample: (a) a position event at Manhattan distance 2 whose
target lies in a disconnected region leaves the tracked character's queued
path empty, not a non-empty path ending at the target; (b) a position event
whose id equals the local participant's at distance 12 leaves the tile at
(0,0) instead of teleporting it to (12,0). -/
theorem C2_counterexample :
    ((Nat.dist 0 2 + Nat.dist 0 0 ≤ 10 ∧ 0 < Nat.dist 0 2 + Nat.dist 0 0) ∧
      (lookupKey 1 (handleMoveEvent
          ⟨⟨3, 1, fun c _ => c ≠ 1⟩, [], (0, 0),
            [(1, ⟨0, (0, 0), [], none, false, none, false, false, false⟩)]⟩
          99 1 2 0).characters).map Character.path = some []) ∧
      ((10 : Nat) < Nat.dist 0 12 + Nat.dist 0 0 ∧
        (lookupKey 1 (handleMoveEvent
            ⟨⟨20, 1, fun _ _ => true⟩, [], (0, 0),
              [(1, ⟨0, (0, 0), [], none, false, none, false, false, false⟩)]⟩
            1 1 12 0).characters).map Character.tile = some (0, 0)) := by
  decide

/-- Witness for C2 at concrete inputs: a far target teleports (empty queued
path at the target tile), and a near reachable target queues the pathfinder
result, which is non-empty and ends at the target. -/
theorem C2_witness :
    lookupKey 1 (handleMoveEvent
        ⟨⟨20, 1, fun _ _ => true⟩, [], (0, 0),
          [(1, ⟨0, (0, 0), [], none, false, none, false, false, false⟩)]⟩
        99 1 12 0).characters
      = some ⟨0, (12, 0), [], none, false, none, false, false, false⟩ ∧
      lookupKey 1 (handleMoveEvent
          ⟨⟨3, 1, fun _ _ => true⟩, [], (0, 0),
            [(1, ⟨0, (0, 0), [], none, false, none, false, false, false⟩)]⟩
          99 1 2 0).characters
        = some ⟨0, (0, 0), [(1, 0), (2, 0)], none, false, none, false, false, false⟩ ∧
      ([(1, 0), (2, 0)] : List Cell) ≠ [] ∧
      ([(1, 0), (2, 0)] : List Cell).getLast? = some (2, 0) := by
  have hA := C2_position_event
    ⟨⟨20, 1, fun _ _ => true⟩, [], (0, 0),
      [(1, ⟨0, (0, 0), [], none, false, none, false, false, false⟩)]⟩
    99 1 12 0 ⟨0, (0, 0), [], none, false, none, false, false, false⟩ (by decide) rfl
  have hB := C2_position_event
    ⟨⟨3, 1, fun _ _ => true⟩, [], (0, 0),
      [(1, ⟨0, (0, 0), [], none, false, none, false, false, false⟩)]⟩
    99 1 2 0 ⟨0, (0, 0), [], none, false, none, false, false, false⟩ (by decide) rfl
  have hB' := hB.2 [(1, 0), (2, 0)] (by decide) (by decide) (by decide)
  exact ⟨hA.1 (by decide), hB'.1, hB'.2.1, hB'.2.2⟩

/-- updateEntry does not change the key column of the character table. -/
theorem map_fst_updateEntry (id : Nat) (f : Character → Character) :
    ∀ l : List (Nat × Character), (updateEntry id f l).map Prod.fst = l.map Prod.fst := by
  intro l
  induction l with
  | nil => rfl
  | cons kv tl ih =>
    obtain ⟨k, v⟩ := kv
    by_cases hk : k = id <;> simp [updateEntry, hk, ih]

/-- Replacing the character table by an updateEntry of itself keeps the
tracked id set. -/
theorem charKeys_mk_update (os : OfficeState) (id : Nat) (f : Character → Character) :
    charKeys { os with characters := updateEntry id f os.characters } = charKeys os := by
  simp [charKeys, map_fst_updateEntry]

/-- setRemoteControlled keeps the tracked id set. -/
theorem charKeys_setRemoteControlled (os : OfficeState) (id : Nat) (b : Bool) :
    charKeys (os.setRemoteControlled id b) = charKeys os :=
  charKeys_mk_update os id _

/-- setAgentActive keeps the tracked id set. -/
theorem charKeys_setAgentActive (os : OfficeState) (id : Nat) (b : Bool) :
    charKeys (os.setAgentActive id b) = charKeys os :=
  charKeys_mk_update os id _

/-- setAgentTool keeps the tracked id set. -/
theorem charKeys_setAgentTool (os : OfficeState) (id : Nat) (t : Option String) :
    charKeys (os.setAgentTool id t) = charKeys os :=
  charKeys_mk_update os id _

/-- showWaitingBubble keeps the tracked id set. -/
theorem charKeys_showWaitingBubble (os : OfficeState) (id : Nat) :
    charKeys (os.showWaitingBubble id) = charKeys os :=
  charKeys_mk_update os id _

/-- teleportToTile keeps the tracked id set. -/
theorem charKeys_teleportToTile (os : OfficeState) (id : Nat) (c r : Nat) :
    charKeys (os.teleportToTile id c r) = charKeys os :=
  charKeys_mk_update os id _

/-- A successful lookup means the key is present in the key column. -/
theorem lookupKey_isSome_mem {l : List (Nat × Character)} {k : Nat}
    (h : (lookupKey k l).isSome) : k ∈ l.map Prod.fst := by
  induction l with
  | nil => simp [lookupKey] at h
  | cons kv tl ih =>
    obtain ⟨k', v⟩ := kv
    by_cases hk : k' = k
    · subst hk; simp
    · simp only [lookupKey, if_neg hk] at h
      simp [ih h]

/-- addAgent inserts the id into the tracked id set (a no-op insertion when
the id is already tracked). -/
theorem charKeys_addAgent (os : OfficeState) (id : Nat) (ci : Int)
    (seat : Option String) (isL : Bool) :
    charKeys (os.addAgent id ci seat isL) = insert id (charKeys os) := by
  unfold OfficeState.addAgent
  by_cases hl : (lookupKey id os.characters).isSome
  · rw [if_pos hl]
    have hmem : id ∈ charKeys os := by
      simpa [charKeys, List.mem_toFinset] using lookupKey_isSome_mem hl
    exact (Finset.insert_eq_self.mpr hmem).symm
  · rw [if_neg hl]
    simp [charKeys]

/-- removeAgent erases exactly the given id from the tracked id set. -/
theorem mem_charKeys_removeAgent (os : OfficeState) (id x : Nat) :
    x ∈ charKeys (os.removeAgent id) ↔ x ∈ charKeys os ∧ x ≠ id := by
  simp only [charKeys, OfficeState.removeAgent, List.mem_toFinset, List.mem_map,
    List.mem_filter, decide_eq_true_eq]
  constructor
  · rintro ⟨kc, ⟨hmem, hne⟩, rfl⟩
    exact ⟨⟨kc, hmem, rfl⟩, hne⟩
  · rintro ⟨⟨kc, hmem, rfl⟩, hne⟩
    exact ⟨kc, ⟨hmem, hne⟩, rfl⟩

/-- One add-phase step of the presence reconciliation inserts exactly the
snapshot entry's id into the tracked id set, provided the pre-captured id
list is contained in the current tracked set. -/
theorem charKeys_applyPresenceAdd (myId : Nat) (cur : List Nat) (os : OfficeState)
    (p : PresencePayload) (hsub : ∀ x ∈ cur, x ∈ charKeys os) :
    charKeys (applyPresenceAdd myId cur os p) = insert p.id (charKeys os) := by
  unfold applyPresenceAdd
  by_cases hc : cur.contains p.id
  · rw [if_pos hc]
    have hmem : p.id ∈ charKeys os := hsub p.id (by simpa using hc)
    exact (Finset.insert_eq_self.mpr hmem).symm
  · rw [if_neg hc]
    cases htc : p.tileCol <;> cases htr : p.tileRow <;>
      by_cases hme : p.id = myId <;>
      by_cases hact : statusToActive p.status <;>
      simp [htc, htr, hme, hact, charKeys_setAgentTool, charKeys_setAgentActive,
        charKeys_setRemoteControlled, charKeys_teleportToTile, charKeys_addAgent]

/-- The add phase of the presence reconciliation unions the snapshot ids
into the tracked id set. -/
theorem charKeys_foldAdd (myId : Nat) (cur : List Nat) :
    ∀ (snap : List PresencePayload) (os : OfficeState),
      (∀ x ∈ cur, x ∈ charKeys os) →
      charKeys (snap.foldl (fun acc p => applyPresenceAdd myId cur acc p) os)
        = charKeys os ∪ (snap.map (·.id)).toFinset := by
  intro snap
  induction snap with
  | nil => intro os _; simp
  | cons p tl ih =>
    intro os hsub
    simp only [List.foldl_cons]
    have h1 := charKeys_applyPresenceAdd myId cur os p hsub
    have hsub' : ∀ x ∈ cur, x ∈ charKeys (applyPresenceAdd myId cur os p) := by
      intro x hx
      rw [h1]
      exact Finset.mem_insert_of_mem (hsub x hx)
    rw [ih _ hsub', h1]
    simp only [List.map_cons, List.toFinset_cons]
    rw [Finset.insert_union, Finset.union_insert]

/-- The removal phase of the presence reconciliation drops exactly the
iterated ids that are absent from the snapshot and differ from the local
participant. -/
theorem mem_charKeys_foldRemove (presenceIds : List Nat) (myId : Nat) :
    ∀ (ids : List Nat) (os : OfficeState) (x : Nat),
      x ∈ charKeys (ids.foldl
          (fun acc id => if ¬ presenceIds.contains id ∧ id ≠ myId then acc.removeAgent id else acc)
          os)
        ↔ x ∈ charKeys os ∧ ¬ (x ∈ ids ∧ ¬ presenceIds.contains x ∧ x ≠ myId) := by
  intro ids
  induction ids with
  | nil => intro os x; simp
  | cons id tl ih =>
    intro os x
    simp only [List.foldl_cons]
    by_cases hcond : ¬ presenceIds.contains id ∧ id ≠ myId
    · rw [if_pos hcond, ih]
      rw [mem_charKeys_removeAgent]
      constructor
      · rintro ⟨⟨hx, hne⟩, hnot⟩
        refine ⟨hx, ?_⟩
        rintro ⟨hmem, hc2, hc3⟩
        rcases List.mem_cons.mp hmem with rfl | hmem
        · exact hne rfl
        · exact hnot ⟨hmem, hc2, hc3⟩
      · rintro ⟨hx, hnot⟩
        refine ⟨⟨hx, ?_⟩, ?_⟩
        · rintro rfl
          exact hnot ⟨List.mem_cons_self _ _, hcond.1, hcond.2⟩
        · rintro ⟨hmem, hc2, hc3⟩
          exact hnot ⟨List.mem_cons_of_mem _ hmem, hc2, hc3⟩
    · rw [if_neg hcond, ih]
      constructor
      · rintro ⟨hx, hnot⟩
        refine ⟨hx, ?_⟩
        rintro ⟨hmem, hc2, hc3⟩
        rcases List.mem_cons.mp hmem with rfl | hmem
        · exact hcond ⟨hc2, hc3⟩
        · exact hnot ⟨hmem, hc2, hc3⟩
      · rintro ⟨hx, hnot⟩
        refine ⟨hx, ?_⟩
        rintro ⟨hmem, hc2, hc3⟩
        exact hnot ⟨List.mem_cons_of_mem _ hmem, hc2, hc3⟩

/-- C1: after snapshot reconciliation the tracked remote-character id set
(the tracked ids without the local participant) equals the snapshot id set
without the local participant, regardless of what was tracked before; and
the local participant's character is never removed by reconciliation. -/
theorem C1_reconcile (os : OfficeState) (myId : Nat) (snapshot : List PresencePayload) :
    charKeys (reconcile os myId snapshot) \ {myId}
        = (snapshot.map (·.id)).toFinset \ {myId} ∧
      (myId ∈ charKeys os → myId ∈ charKeys (reconcile os myId snapshot)) := by
  have hsub0 : ∀ x ∈ os.characters.map Prod.fst, x ∈ charKeys os := by
    intro x hx
    simpa [charKeys, List.mem_toFinset] using hx
  have hA := charKeys_foldAdd myId (os.characters.map Prod.fst) snapshot os hsub0
  have hmain : ∀ x, x ∈ charKeys (reconcile os myId snapshot)
      ↔ (x ∈ charKeys os ∨ x ∈ (snapshot.map (·.id)).toFinset)
        ∧ ¬ (x ∈ charKeys os ∧ ¬ (snapshot.map (·.id)).contains x ∧ x ≠ myId) := by
    intro x
    unfold reconcile
    rw [mem_charKeys_foldRemove, hA]
    simp only [Finset.mem_union, charKeys, List.mem_toFinset]
  constructor
  · ext x
    simp only [Finset.mem_sdiff, Finset.mem_singleton, hmain, List.mem_toFinset]
    have hcont : (snapshot.map (·.id)).contains x = true ↔ x ∈ snapshot.map (·.id) := by
      simp
    constructor
    · rintro ⟨⟨hin, hnot⟩, hne⟩
      refine ⟨?_, hne⟩
      rcases hin with hin | hin
      · by_contra hxs
        exact hnot ⟨hin, fun hc => hxs (hcont.mp hc), hne⟩
      · exact hin
    · rintro ⟨hin, hne⟩
      exact ⟨⟨Or.inr hin, fun ⟨_, hnc, _⟩ => hnc (hcont.mpr hin)⟩, hne⟩
  · intro hmy
    rw [hmain]
    exact ⟨Or.inl hmy, fun ⟨_, _, hne⟩ => hne rfl⟩

/-- Witness for C1: a concrete prior state tracking ids 1 (stale) and 99
(local), reconciled against a snapshot naming ids 2 and 99 — afterwards the
remote set is exactly the snapshot minus the local id, and the local
character survives. -/
theorem C1_witness :
    charKeys (reconcile
        ⟨⟨1, 1, fun _ _ => true⟩, [], (0, 0),
          [(1, ⟨0, (0, 0), [], none, false, none, false, false, false⟩),
            (99, ⟨0, (0, 0), [], none, false, none, false, false, true⟩)]⟩
        99
        [⟨2, "a", 0, .idle, none, some 0, some 0⟩, ⟨99, "me", 0, .idle, none, none, none⟩])
          \ {99}
        = ([⟨2, "a", 0, .idle, none, some 0, some 0⟩,
            (⟨99, "me", 0, .idle, none, none, none⟩ : PresencePayload)].map (·.id)).toFinset
          \ {99} ∧
      99 ∈ charKeys (reconcile
        ⟨⟨1, 1, fun _ _ => true⟩, [], (0, 0),
          [(1, ⟨0, (0, 0), [], none, false, none, false, false, false⟩),
            (99, ⟨0, (0, 0), [], none, false, none, false, false, true⟩)]⟩
        99
        [⟨2, "a", 0, .idle, none, some 0, some 0⟩, ⟨99, "me", 0, .idle, none, none, none⟩]) := by
  have h := C1_reconcile
    ⟨⟨1, 1, fun _ _ => true⟩, [], (0, 0),
      [(1, ⟨0, (0, 0), [], none, false, none, false, false, false⟩),
        (99, ⟨0, (0, 0), [], none, false, none, false, false, true⟩)]⟩
    99
    [⟨2, "a", 0, .idle, none, some 0, some 0⟩, ⟨99, "me", 0, .idle, none, none, none⟩]
  exact ⟨h.1, h.2 (by decide)⟩

/-- Composition law for updateEntry at the same id. -/
theorem updateEntry_comp (id : Nat) (f g : Character → Character) :
    ∀ l, updateEntry id f (updateEntry id g l) = updateEntry id (fun c => f (g c)) l := by
  intro l
  induction l with
  | nil => rfl
  | cons kv tl ih =>
    obtain ⟨k, v⟩ := kv
    by_cases hk : k = id
    · rw [show updateEntry id g ((k, v) :: tl)
            = (if k = id then (k, g v) else (k, v)) :: updateEntry id g tl from rfl,
        if_pos hk,
        show updateEntry id f ((k, g v) :: updateEntry id g tl)
            = (if k = id then (k, f (g v)) else (k, g v)) :: updateEntry id f (updateEntry id g tl)
          from rfl,
        if_pos hk, ih,
        show updateEntry id (fun c => f (g c)) ((k, v) :: tl)
            = (if k = id then (k, f (g v)) else (k, v)) :: updateEntry id (fun c => f (g c)) tl
          from rfl,
        if_pos hk]
    · rw [show updateEntry id g ((k, v) :: tl)
            = (if k = id then (k, g v) else (k, v)) :: updateEntry id g tl from rfl,
        if_neg hk,
        show updateEntry id f ((k, v) :: updateEntry id g tl)
            = (if k = id then (k, f v) else (k, v)) :: updateEntry id f (updateEntry id g tl)
          from rfl,
        if_neg hk, ih,
        show updateEntry id (fun c => f (g c)) ((k, v) :: tl)
            = (if k = id then (k, f (g v)) else (k, v)) :: updateEntry id (fun c => f (g c)) tl
          from rfl,
        if_neg hk]

/-- A doubled two-step per-character update collapses to a single pass when
the composed per-character function is idempotent. -/
theorem updateEntry_four (pid : Nat) (f g : Character → Character)
    (hidem : ∀ c, f (g (f (g c))) = f (g c)) (l : List (Nat × Character)) :
    updateEntry pid f (updateEntry pid g (updateEntry pid f (updateEntry pid g l)))
      = updateEntry pid f (updateEntry pid g l) := by
  simp only [updateEntry_comp]
  rw [show (fun c => f (g (f (g c)))) = fun c => f (g c) from funext hidem]

/-- A doubled three-step per-character update collapses to a single pass
when the composed per-character function is idempotent. -/
theorem updateEntry_six (pid : Nat) (f g h : Character → Character)
    (hidem : ∀ c, f (g (h (f (g (h c))))) = f (g (h c))) (l : List (Nat × Character)) :
    updateEntry pid f (updateEntry pid g (updateEntry pid h
        (updateEntry pid f (updateEntry pid g (updateEntry pid h l)))))
      = updateEntry pid f (updateEntry pid g (updateEntry pid h l)) := by
  simp only [updateEntry_comp]
  rw [show (fun c => f (g (h (f (g (h c)))))) = fun c => f (g (h c)) from funext hidem]

/-- The per-character seat update is idempotent: the second application
sees the same tile, hence the same chair lookup and the same path. -/
theorem seatUpdate_idem (os : OfficeState) (s : String) (c : Character) :
    seatUpdate os s (seatUpdate os s c) = seatUpdate os s c := by
  unfold seatUpdate
  cases hs : lookupKey s os.seats with
  | none => rfl
  | some chair =>
    cases hf : findPath os.map c.tile chair with
    | none => simp [hf]
    | some p => simp [hf]

/-- reassignSeat is idempotent on the engine state. -/
theorem reassignSeat_idem (os : OfficeState) (id : Nat) (s : String) :
    (os.reassignSeat id s).reassignSeat id s = os.reassignSeat id s := by
  show ({ { os with characters := updateEntry id (seatUpdate os s) os.characters } with
      characters := updateEntry id (seatUpdate os s)
        (updateEntry id (seatUpdate os s) os.characters) } : OfficeState)
    = { os with characters := updateEntry id (seatUpdate os s) os.characters }
  rw [updateEntry_comp]
  rw [show (fun c => seatUpdate os s (seatUpdate os s c)) = seatUpdate os s from
    funext (seatUpdate_idem os s)]

/-- The status broadcast handler is idempotent. -/
theorem handleStatusEvent_idem (v : ClientView) (myId pid : Nat) (s : PlayerStatus) :
    handleStatusEvent (handleStatusEvent v myId pid s) myId pid s
      = handleStatusEvent v myId pid s := by
  by_cases hpid : pid = myId
  · simp [handleStatusEvent, hpid]
  · simp only [handleStatusEvent, if_neg hpid]
    cases s with
    | coding =>
      exact congrArg
        (fun X => ({ v with os := { v.os with characters := X } } : ClientView))
        (updateEntry_four pid (fun ch => { ch with tool := some "Edit" })
          (fun ch => { ch with isActive := true }) (fun c => rfl) v.os.characters)
    | reading =>
      exact congrArg
        (fun X => ({ v with os := { v.os with characters := X } } : ClientView))
        (updateEntry_four pid (fun ch => { ch with tool := some "Read" })
          (fun ch => { ch with isActive := true }) (fun c => rfl) v.os.characters)
    | idle =>
      exact congrArg
        (fun X => ({ v with os := { v.os with characters := X } } : ClientView))
        (updateEntry_four pid (fun ch => { ch with tool := none })
          (fun ch => { ch with isActive := false }) (fun c => rfl) v.os.characters)
    | afk =>
      exact congrArg
        (fun X => ({ v with os := { v.os with characters := X } } : ClientView))
        (updateEntry_six pid (fun ch => { ch with waitingBubble := true })
          (fun ch => { ch with tool := none })
          (fun ch => { ch with isActive := false }) (fun c => rfl) v.os.characters)

/-- The tracked-player-list seat update is idempotent. -/
theorem map_seatUpd_idem (pid : Nat) (s : String) :
    ∀ l : List PlayerInfo,
      (l.map fun p => if p.id = pid then { p with seatId := some s } else p).map
          (fun p => if p.id = pid then { p with seatId := some s } else p)
        = l.map fun p => if p.id = pid then { p with seatId := some s } else p := by
  intro l
  induction l with
  | nil => rfl
  | cons p tl ih =>
    simp only [List.map_cons]
    rw [ih]
    by_cases hp : p.id = pid <;> simp [hp]

/-- The playerSeatChanged case of the client dispatcher is idempotent. -/
theorem clientSeat_idem (w : WsView) (pid : Nat) (s : String) :
    clientHandleMsg (clientHandleMsg w (.playerSeatChanged pid s)) (.playerSeatChanged pid s)
      = clientHandleMsg w (.playerSeatChanged pid s) := by
  simp only [clientHandleMsg]
  rw [map_seatUpd_idem, reassignSeat_idem]

/-- C5: applying the same status-changed event twice in a row, or the same
seat-changed event twice in a row, yields exactly the same engine state and
tracked player list as applying it once. -/
theorem C5_status_seat_idempotent (v : ClientView) (myId pid : Nat) (s : PlayerStatus)
    (w : WsView) (pid2 : Nat) (seat : String) :
    handleStatusEvent (handleStatusEvent v myId pid s) myId pid s
        = handleStatusEvent v myId pid s ∧
      clientHandleMsg (clientHandleMsg w (.playerSeatChanged pid2 seat))
          (.playerSeatChanged pid2 seat)
        = clientHandleMsg w (.playerSeatChanged pid2 seat) :=
  ⟨handleStatusEvent_idem v myId pid s, clientSeat_idem w pid2 seat⟩
